import Mathlib

/-!
# Verification of the influxdb_iox compaction core against its specification

This file embeds the parts of the repository that the claims concern:

* the cold-compaction driver `compact_remaining_level_0_files` / `full_compaction` /
  `compact_cold_partition` and the hot driver `compact_hot_partition`
  (`compactor/src/lib.rs`),
* the parquet upload retry loop (`parquet_file/src/storage.rs`),
* the cached object store (`querier/src/cache/object_store.rs`),
* the loader-coalescing cache primitive (`cache_system/src/loader`),
* the delete-expression round trip (`predicate/src/delete_expr.rs`).

Rust `u64` quantities are embedded as `Nat` with explicit `% 2 ^ 64` where the
source can wrap; `i64` quantities as `Int`; fallible code as `Except`/`Option`.
Components of the repository that are referenced by the sources but whose own
code is not among them (the parquet-file filter, the combining pipeline, the
catalog repositories and the cache driver) are modelled from the specification;
each such definition carries a doc comment saying so.
-/

namespace IoxCompact

/-- Compaction level of a parquet file (`data_types::CompactionLevel`):
`Initial` = L0, `FileNonOverlapped` = L1, `Final` = L2. -/
inductive CompactionLevel where
  | Initial
  | FileNonOverlapped
  | Final
deriving DecidableEq, Repr

/-- One data row of the `table` used by the compaction scenarios: three optional
tag columns, one integer field and the timestamp (nanoseconds). -/
structure Row where
  tag1 : Option String
  tag2 : Option String
  tag3 : Option String
  field_int : Int
  time : Int
deriving DecidableEq, Repr

/-- Catalog record of a parquet file (`data_types::ParquetFile`), restricted to
the attributes the compaction core reads, plus the rows the file stores. -/
structure PFile where
  id : Nat
  minTime : Int
  maxTime : Int
  maxSequenceNumber : Int
  fileSizeBytes : Int
  compactionLevel : CompactionLevel
  rows : List Row
  toDelete : Bool
deriving DecidableEq, Repr

/-- The `file.file_size_bytes as u64` cast of the source: two's-complement
reinterpretation of an `i64` as a `u64`. -/
def sizeU64 (f : PFile) : Nat := (f.fileSizeBytes % (2 ^ 64 : Int)).toNat

/-- Catalog state visible to one partition's compaction: its parquet files, the
next fresh file id, and a count of blobs written to the object store. -/
structure CatalogState where
  files : List PFile
  nextId : Nat
  blobsWritten : Nat
deriving DecidableEq, Repr

/-- Files not flagged `to_delete` (flagged files are catalog-visible but
compaction-ignored). -/
def liveFiles (st : CatalogState) : List PFile := st.files.filter (fun f => !f.toDelete)

/-- `parquet_files.update_compaction_level(ids, level)` of the catalog
interface: set the compaction level of the files with the given ids. -/
def updateCompactionLevel (st : CatalogState) (ids : List Nat) (lvl : CompactionLevel) :
    CatalogState :=
  { st with
    files := st.files.map fun f =>
      if f.id ∈ ids then { f with compactionLevel := lvl } else f }

/-- `parquet_files.flag_for_delete(ids)` of the catalog interface. -/
def flagToDelete (st : CatalogState) (ids : List Nat) : CatalogState :=
  { st with
    files := st.files.map fun f =>
      if f.id ∈ ids then { f with toDelete := true } else f }

/-- Lookup result for one partition, grouped by level
(`parquet_file_lookup::ParquetFilesForCompaction`). -/
structure ParquetFilesForCompaction where
  level0 : List PFile
  level1 : List PFile
  level2 : List PFile
deriving DecidableEq, Repr

/-- The lookup ordering key: `(max_sequence_number ASC, min_time ASC)`. -/
def lookupLe (a b : PFile) : Bool :=
  decide (a.maxSequenceNumber < b.maxSequenceNumber
    ∨ (a.maxSequenceNumber = b.maxSequenceNumber ∧ a.minTime ≤ b.minTime))

/-- Insertion into a list sorted by `lookupLe`. -/
def insertLookup (f : PFile) : List PFile → List PFile
  | [] => [f]
  | x :: xs => if lookupLe f x then f :: x :: xs else x :: insertLookup f xs

/-- Sort files by `(max_sequence_number ASC, min_time ASC)`. -/
def sortLookup (l : List PFile) : List PFile := l.foldr insertLookup []

/-- Modelled from the spec: `parquet_file_lookup::ParquetFilesForCompaction::for_partition`
is not among the sources.  Spec §4.2: return the live files of the partition
grouped by level, each level ordered by `(max_sequence_number ASC, min_time ASC)`. -/
def lookupForPartition (st : CatalogState) : ParquetFilesForCompaction :=
  let live := liveFiles st
  { level0 := sortLookup (live.filter (fun f => f.compactionLevel = CompactionLevel.Initial))
    level1 :=
      sortLookup (live.filter (fun f => f.compactionLevel = CompactionLevel.FileNonOverlapped))
    level2 := sortLookup (live.filter (fun f => f.compactionLevel = CompactionLevel.Final)) }

/-- Two files overlap when their `[min_time, max_time]` ranges intersect. -/
def overlapsB (a b : PFile) : Bool :=
  decide (a.minTime ≤ b.maxTime ∧ b.minTime ≤ a.maxTime)

/-- Modelled from the spec: helper for the cold filter's thresholds.  Take files
in order, accumulating size and count, and stop (flag `true`) right after a
file makes the cumulative size reach `S` or the count reach `N` (spec §4.3:
"until cumulative size ≥ S_cold or count ≥ N_cold"). -/
def budgetTakeCold (S N : Nat) : List PFile → List PFile → Nat → Nat →
    List PFile × Nat × Nat × Bool
  | [], acc, cum, cnt => (acc, cum, cnt, false)
  | f :: rest, acc, cum, cnt =>
    let cum2 := cum + sizeU64 f
    let cnt2 := cnt + 1
    let acc2 := acc ++ [f]
    if S ≤ cum2 ∨ N ≤ cnt2 then (acc2, cum2, cnt2, true)
    else budgetTakeCold S N rest acc2 cum2 cnt2

/-- Modelled from the spec: `parquet_file_filtering::filter_cold_parquet_files`
is not among the sources.  Spec §4.3 (cold filter): take all `level_0` files
and any `level_1` file whose time range overlaps a chosen L0 file, until the
cumulative size reaches `S` or the file count reaches `N`. -/
def filterColdParquetFiles (pfc : ParquetFilesForCompaction) (S N : Nat) : List PFile :=
  match budgetTakeCold S N pfc.level0 [] 0 0 with
  | (l0s, cum, cnt, stopped) =>
    if stopped then l0s
    else
      let overlapping := pfc.level1.filter (fun g => l0s.any (fun f => overlapsB f g))
      (budgetTakeCold S N overlapping l0s cum cnt).1

/-- Modelled from the spec: helper for the hot filter's memory budget.  Greedily
add files in order, stopping when adding the next file would exceed the budget
`B` (spec §4.3, hot filter). -/
def budgetTakeHot (B : Nat) (est : PFile → Nat) : List PFile → List PFile → Nat →
    List PFile × Nat
  | [], acc, used => (acc, used)
  | f :: rest, acc, used =>
    if used + est f ≤ B then budgetTakeHot B est rest (acc ++ [f]) (used + est f)
    else (acc, used)

/-- Modelled from the spec: `parquet_file_filtering::filter_hot_parquet_files`
is not among the sources.  Spec §4.3 (hot filter): greedily add `level_0` files
in `(max_sequence_number ASC)` order, then the `level_1` files overlapping a
selected L0 file, within the memory budget `B`; the per-file footprint
estimator `est` abstracts the column-type-count heuristic. -/
def filterHotParquetFiles (pfc : ParquetFilesForCompaction) (B : Nat) (est : PFile → Nat) :
    List PFile :=
  match budgetTakeHot B est pfc.level0 [] 0 with
  | (l0s, used) =>
    let overlapping := pfc.level1.filter (fun g => l0s.any (fun f => overlapsB f g))
    (budgetTakeHot B est overlapping l0s used).1

/-- Minimum of a list of integers (`0` for the empty list, which the compaction
paths never produce). -/
def minListI : List Int → Int
  | [] => 0
  | x :: xs => xs.foldl min x

/-- Maximum of a list of integers (`0` for the empty list). -/
def maxListI : List Int → Int
  | [] => 0
  | x :: xs => xs.foldl max x

/-- Row identity for duplicate resolution: `(tag columns…, time)`. -/
def rowKey (r : Row) : Option String × Option String × Option String × Int :=
  (r.tag1, r.tag2, r.tag3, r.time)

/-- One row of one input file, tagged with the file's `max_sequence_number` and
the row's position inside the file (the position stands in for the sort-key
order within a file). -/
structure REntry where
  seq : Int
  idx : Nat
  row : Row
deriving DecidableEq, Repr

/-- All rows of the input files as entries. -/
def entriesOf (fs : List PFile) : List REntry :=
  fs.flatMap fun f => f.rows.enum.map fun p => ⟨f.maxSequenceNumber, p.1, p.2⟩

/-- `a` beats `b` in duplicate resolution: higher source-file
`max_sequence_number` wins; within a file, the later row wins. -/
def beats (a b : REntry) : Bool :=
  decide (b.seq < a.seq ∨ (b.seq = a.seq ∧ b.idx < a.idx))

/-- Modelled from the spec: the `Deduplicate` stage of the combining pipeline
(`parquet_file_combining` is not among the sources).  Spec §3 invariant 2 /
§8 property 2: of the rows sharing an identity `(tag columns…, time)`, the one
from the input with the highest `max_sequence_number` survives; within a file,
the later row. -/
def dedupRows (fs : List PFile) : List Row :=
  let es := entriesOf fs
  (es.filter fun e =>
    !(es.any fun e2 => decide (rowKey e2.row = rowKey e.row) && beats e2 e)).map (·.row)

/-- Insertion into a list of rows sorted by time. -/
def insertByTime (r : Row) : List Row → List Row
  | [] => [r]
  | x :: xs => if r.time ≤ x.time then r :: x :: xs else x :: insertByTime r xs

/-- Sort rows by time (output files are written in timestamp order). -/
def sortRowsByTime (l : List Row) : List Row := l.foldr insertByTime []

/-- Modelled from the spec: write one output file (spec §4.5 step 4).  Its
`min_time`/`max_time` bound its rows, its `max_sequence_number` is the maximum
over the contributing inputs, and its size is abstracted as the total input
size (the real size is the parquet-encoded byte count, which only matters
against thresholds far above it in the scenarios considered here). -/
def mkOutput (id : Nat) (band : List Row) (lvl : CompactionLevel) (totalSize : Nat)
    (maxSeq : Int) : PFile :=
  let sorted := sortRowsByTime band
  { id := id
    minTime := minListI (sorted.map (·.time))
    maxTime := maxListI (sorted.map (·.time))
    maxSequenceNumber := maxSeq
    fileSizeBytes := (totalSize : Int)
    compactionLevel := lvl
    rows := sorted
    toDelete := false }

/-- Modelled from the spec: the catalog swap of the combining pipeline (spec
§4.5 step 5): insert the output files at the target level with fresh ids and
flag every input file `to_delete`; each output written counts one blob. -/
def writeOutputs (st : CatalogState) (inputs : List PFile) (bands : List (List Row))
    (lvl : CompactionLevel) (totalSize : Nat) (maxSeq : Int) : CatalogState :=
  let st1 := flagToDelete st (inputs.map (·.id))
  bands.foldl
    (fun s band =>
      { s with
        files := s.files ++ [mkOutput s.nextId band lvl totalSize maxSeq]
        nextId := s.nextId + 1
        blobsWritten := s.blobsWritten + 1 })
    st1

/-- The compactor configuration options the claims use, with the meaning of
`compactor::handler::CompactorConfig`. -/
structure CompactorConfig where
  maxDesiredFileSizeBytes : Nat
  percentageMaxFileSize : Nat
  splitPercentage : Nat
  coldInputSizeThresholdBytes : Nat
  coldMaxDesiredFileSizeBytes : Nat
  coldInputFileCountThreshold : Nat
  memoryBudgetBytes : Nat
deriving DecidableEq, Repr

/-- Modelled from the spec: `parquet_file_combining::compact_parquet_files` is
not among the sources.  Spec §4.5: merge and deduplicate the input rows; if the
total input size is at most `max_desired_file_size * percentage_max_file_size /
100`, produce a single L1 output, otherwise split at
`t_split = t_min + (t_max - t_min) * split_percentage / 100` into two outputs
(first output: rows with `time ≤ t_split`); then swap outputs for inputs in the
catalog.  Integer division truncates as in the source's `i64` arithmetic. -/
def compactParquetFiles (cfg : CompactorConfig) (st : CatalogState)
    (toCompact : List PFile) : CatalogState :=
  match toCompact with
  | [] => st
  | _ =>
    let rows := dedupRows toCompact
    let totalSize := (toCompact.map sizeU64).sum
    let maxSeq := maxListI (toCompact.map (·.maxSequenceNumber))
    let bands :=
      if totalSize ≤ cfg.maxDesiredFileSizeBytes * cfg.percentageMaxFileSize / 100 then
        [rows]
      else
        let tmin := minListI (toCompact.map (·.minTime))
        let tmax := maxListI (toCompact.map (·.maxTime))
        let tsplit := tmin + Int.tdiv ((tmax - tmin) * (cfg.splitPercentage : Int)) 100
        [rows.filter (fun r => decide (r.time ≤ tsplit)),
         rows.filter (fun r => decide (tsplit < r.time))]
    writeOutputs st toCompact bands CompactionLevel.FileNonOverlapped totalSize maxSeq

/-- Modelled from the spec: `parquet_file_combining::compact_final_no_splits` is
not among the sources.  Doc comment of `full_compaction` in
`compactor/src/lib.rs`: "Compact each group into a new level 2 file, no
splitting". -/
def compactFinalNoSplits (st : CatalogState) (group : List PFile) : CatalogState :=
  writeOutputs st group [dedupRows group] CompactionLevel.Final
    ((group.map sizeU64).sum) (maxListI (group.map (·.maxSequenceNumber)))

/-- A catalog action the cold/hot drivers issue, recorded for the theorems:
either a pure level promotion (`update_compaction_level`) or a hand-off of a
set of input files to the combining pipeline at a target level. -/
inductive Action where
  | upgrade (ids : List Nat) (lvl : CompactionLevel)
  | combine (files : List PFile) (lvl : CompactionLevel)
deriving DecidableEq, Repr

/-- `compact_remaining_level_0_files` from `compactor/src/lib.rs`: look up the
partition's files, run the cold filter, and, when the selection is exactly one
file at level `Initial`, upgrade it to `FileNonOverlapped` without running
compaction; otherwise hand the selection to the combining pipeline.  Returns
the new catalog state together with the action trace. -/
def compactRemainingLevel0Files (cfg : CompactorConfig) (st : CatalogState) :
    CatalogState × List Action :=
  let pfc := lookupForPartition st
  let toCompact :=
    filterColdParquetFiles pfc cfg.coldInputSizeThresholdBytes cfg.coldInputFileCountThreshold
  match toCompact with
  | [f] =>
    if f.compactionLevel = CompactionLevel.Initial then
      (updateCompactionLevel st [f.id] CompactionLevel.FileNonOverlapped,
       [Action.upgrade [f.id] CompactionLevel.FileNonOverlapped])
    else
      (compactParquetFiles cfg st toCompact,
       [Action.combine toCompact CompactionLevel.FileNonOverlapped])
  | _ =>
    (compactParquetFiles cfg st toCompact,
     [Action.combine toCompact CompactionLevel.FileNonOverlapped])

/-- The running cumulative group size of `full_compaction`:
`group_file_size_bytes += file.file_size_bytes as u64` on a `u64`. -/
def cumAdd (acc : Nat) (f : PFile) : Nat := (acc + sizeU64 f) % 2 ^ 64

/-- Cumulative (`u64`) size of a group of files. -/
def groupCumSize (g : List PFile) : Nat := g.foldl cumAdd 0

/-- The grouping loop of `full_compaction` (`compactor/src/lib.rs`): push each
level-1 file onto the current group; as soon as the cumulative size reaches
`maxB`, close the group; a nonempty trailing group is kept. -/
def groupFilesGo (maxB : Nat) : List PFile → List PFile → Nat → List (List PFile)
  | [], g, _ => if g.isEmpty then [] else [g]
  | f :: rest, g, cum =>
    if maxB ≤ cumAdd cum f then (g ++ [f]) :: groupFilesGo maxB rest [] 0
    else groupFilesGo maxB rest (g ++ [f]) (cumAdd cum f)

/-- The groups `full_compaction` forms from the level-1 files. -/
def fullCompactionGroups (level1 : List PFile) (maxB : Nat) : List (List PFile) :=
  groupFilesGo maxB level1 [] 0

/-- The catalog action `full_compaction` issues for one group: a singleton
group is upgraded to `Final`, a larger group goes to the combiner. -/
def groupAction (g : List PFile) : Action :=
  match g with
  | [f] => Action.upgrade [f.id] CompactionLevel.Final
  | _ => Action.combine g CompactionLevel.Final

/-- The per-group body of `full_compaction`'s loop (`compactor/src/lib.rs`):
a singleton group is upgraded to `Final` via `update_compaction_level`; a
larger group is compacted into one new level-2 file. -/
def fullCompactionStep (acc : CatalogState × List Action) (g : List PFile) :
    CatalogState × List Action :=
  match g with
  | [f] =>
    (updateCompactionLevel acc.1 [f.id] CompactionLevel.Final,
     acc.2 ++ [Action.upgrade [f.id] CompactionLevel.Final])
  | _ => (compactFinalNoSplits acc.1 g, acc.2 ++ [Action.combine g CompactionLevel.Final])

/-- `full_compaction` from `compactor/src/lib.rs`: select the partition's
level-1 files, split them into size-bounded groups, then upgrade each
singleton group to `Final` and compact each larger group into one new level-2
file. -/
def fullCompaction (cfg : CompactorConfig) (st : CatalogState) :
    CatalogState × List Action :=
  (fullCompactionGroups (lookupForPartition st).level1
      cfg.coldMaxDesiredFileSizeBytes).foldl fullCompactionStep (st, [])

/-- `compact_cold_partition` from `compactor/src/lib.rs`: the remaining-L0 step
followed by full compaction. -/
def compactColdPartition (cfg : CompactorConfig) (st : CatalogState) :
    CatalogState × List Action :=
  match compactRemainingLevel0Files cfg st with
  | (st1, a1) =>
    match fullCompaction cfg st1 with
    | (st2, a2) => (st2, a1 ++ a2)

/-- `compact_hot_partition` from `compactor/src/lib.rs`, applied to the hot
filter's output: hand the filtered files to the combining pipeline with the L1
split parameters. -/
def compactHotPartition (cfg : CompactorConfig) (est : PFile → Nat) (st : CatalogState) :
    CatalogState :=
  compactParquetFiles cfg st
    (filterHotParquetFiles (lookupForPartition st) cfg.memoryBudgetBytes est)

/-! ## Scenario data

The literal inputs of the integration tests in `compactor/src/lib.rs`
(`make_compactor_config`, the `lp1 .. lp6` line-protocol snippets and the
`TestParquetFileBuilder` attributes). -/

/-- The configuration built by `make_compactor_config` in the tests. -/
def cfgTest : CompactorConfig :=
  { maxDesiredFileSizeBytes := 10000
    percentageMaxFileSize := 30
    splitPercentage := 80
    coldInputSizeThresholdBytes := 600 * 1024 * 1024
    coldMaxDesiredFileSizeBytes := 104857600
    coldInputFileCountThreshold := 100
    memoryBudgetBytes := 100000000 }

/-- Row builder. -/
def mkRow (t1 t2 t3 : Option String) (v t : Int) : Row :=
  { tag1 := t1, tag2 := t2, tag3 := t3, field_int := v, time := t }

/-- Rows of `lp1`. -/
def lp1Rows : List Row :=
  [mkRow (some "WA") none none 1000 10, mkRow (some "VT") none none 10 20]

/-- Rows of `lp2` (the `tag1=WA, time=8000` row is the duplicate that loses). -/
def lp2Rows : List Row :=
  [mkRow (some "WA") none none 1000 8000, mkRow (some "VT") none none 10 10000,
   mkRow (some "UT") none none 70 20000]

/-- Rows of `lp3` (the `tag1=WA, time=8000` row is the duplicate that wins). -/
def lp3Rows : List Row :=
  [mkRow (some "WA") none none 1500 8000, mkRow (some "VT") none none 10 6000,
   mkRow (some "UT") none none 270 25000]

/-- Rows of `lp4`. -/
def lp4Rows : List Row :=
  [mkRow none (some "WA") (some "10") 1600 28000, mkRow none (some "VT") (some "20") 20 26000]

/-- Rows of `lp5`. -/
def lp5Rows : List Row :=
  [mkRow none (some "PA") (some "15") 1601 9, mkRow none (some "OH") (some "21") 21 25]

/-- Rows of `lp6`. -/
def lp6Rows : List Row :=
  [mkRow none (some "PA") (some "15") 81601 90000, mkRow none (some "OH") (some "21") 421 91000]

/-- `pf1`: L0, `[10, 20]`, `max_seq 3`, size `max_desired_file_size_bytes + 10`. -/
def pf1 : PFile :=
  { id := 1, minTime := 10, maxTime := 20, maxSequenceNumber := 3, fileSizeBytes := 10010
    compactionLevel := CompactionLevel.Initial, rows := lp1Rows, toDelete := false }

/-- `pf2`: L0, `[8000, 20000]`, `max_seq 5`, size 100. -/
def pf2 : PFile :=
  { id := 2, minTime := 8000, maxTime := 20000, maxSequenceNumber := 5, fileSizeBytes := 100
    compactionLevel := CompactionLevel.Initial, rows := lp2Rows, toDelete := false }

/-- `pf3`: L0, `[6000, 25000]`, `max_seq 10`, size 100. -/
def pf3 : PFile :=
  { id := 3, minTime := 6000, maxTime := 25000, maxSequenceNumber := 10, fileSizeBytes := 100
    compactionLevel := CompactionLevel.Initial, rows := lp3Rows, toDelete := false }

/-- `pf4`: L0, `[26000, 28000]`, `max_seq 18`, size 100. -/
def pf4 : PFile :=
  { id := 4, minTime := 26000, maxTime := 28000, maxSequenceNumber := 18, fileSizeBytes := 100
    compactionLevel := CompactionLevel.Initial, rows := lp4Rows, toDelete := false }

/-- `pf5`: L1, `[9, 25]`, `max_seq 1`, size 100. -/
def pf5 : PFile :=
  { id := 5, minTime := 9, maxTime := 25, maxSequenceNumber := 1, fileSizeBytes := 100
    compactionLevel := CompactionLevel.FileNonOverlapped, rows := lp5Rows, toDelete := false }

/-- `pf6`: L1, `[90000, 91000]`, `max_seq 20`, size 100. -/
def pf6 : PFile :=
  { id := 6, minTime := 90000, maxTime := 91000, maxSequenceNumber := 20, fileSizeBytes := 100
    compactionLevel := CompactionLevel.FileNonOverlapped, rows := lp6Rows, toDelete := false }

/-- Initial catalog state of scenarios S1 and S3: the six files `pf1 .. pf6`. -/
def sixFilesState : CatalogState := { files := [pf1, pf2, pf3, pf4, pf5, pf6], nextId := 7
                                      blobsWritten := 0 }

/-- `pf6` as it is created in scenario S2, where it receives id 2. -/
def pf6S2 : PFile := { pf6 with id := 2 }

/-- Initial catalog state of scenario S2: one L0 file and one non-overlapping
L1 file (ids 1 and 2 as in
`test_compact_remaining_level_0_files_one_level_0_without_overlap`). -/
def s2State : CatalogState := { files := [pf1, pf6S2], nextId := 3, blobsWritten := 0 }

/-- The footprint estimator used for the hot-filter scenario: the real
estimator's heuristic values are irrelevant here because every file fits in the
100 MB budget by a wide margin. -/
def estSmall : PFile → Nat := fun _ => 100

/-! ## The parquet upload retry loop (`parquet_file/src/storage.rs`) -/

/-- `UploadError` from `parquet_file/src/storage.rs`. -/
inductive UploadError where
  | serialise
  | metadata
  | upload
deriving DecidableEq, Repr

/-- The put-retry loop of `ParquetStorage::upload`:
`while let Err(e) = object_store.put(..) { sleep(1s) }`.  `putOk n` says
whether the `n`-th `put` attempt succeeds; the result is the number of `put`
calls made up to the first success, or `none` when the given fuel runs out
with every attempt failing — the loop itself has no bound. -/
def uploadPutLoop (putOk : Nat → Bool) : Nat → Nat → Option Nat
  | 0, _ => none
  | fuel + 1, i => if putOk i then some (i + 1) else uploadPutLoop putOk fuel (i + 1)

/-- The sleep between consecutive `put` attempts:
`tokio::time::sleep(Duration::from_secs(1))`, the same for every attempt. -/
def uploadRetryDelaySecs (_attempt : Nat) : Nat := 1

/-- `ParquetStorage::upload`: a serialisation failure and a metadata-conversion
failure return immediately; afterwards the `put` loop runs until a `put`
succeeds (`none` = the loop is still running when the fuel runs out). -/
def uploadModel (serOk metaOk : Bool) (putOk : Nat → Bool) (fuel : Nat) :
    Option (Except UploadError Unit) :=
  if !serOk then some (Except.error UploadError.serialise)
  else if !metaOk then some (Except.error UploadError.metadata)
  else (uploadPutLoop putOk fuel 0).map fun _ => Except.ok ()

/-- A persistently failing object store: every `put` attempt fails. -/
def allPutsFail : Nat → Bool := fun _ => false

/-- A store whose `put` fails twice and then succeeds, for the witness. -/
def putOkAfterTwo : Nat → Bool := fun m => decide (2 ≤ m)

/-! ## The cached object store (`querier/src/cache/object_store.rs`) -/

/-- Byte strings of the object-store model. -/
abbrev Bytes := List Nat

/-- `object_store::Error`, restricted to the variants this cache produces. -/
inductive OSError where
  | notFound
  | generic
deriving DecidableEq, Repr

/-- State of the cached object store: the underlying store's objects and the
cache of loader results.  A cached `none` records a "not found" loader
outcome. -/
structure OSState where
  under : List (String × Bytes)
  cache : List (String × Option Bytes)
deriving DecidableEq, Repr

/-- The underlying store's `get`: `none` models `Err(NotFound)`. -/
def underGet (st : OSState) (p : String) : Option Bytes := st.under.lookup p

/-- `read_from_store` from `querier/src/cache/object_store.rs`: a `NotFound`
from the underlying `get` becomes `Ok(None)`, data becomes `Ok(Some(data))`;
so the loader value is exactly the underlying store's content at the path. -/
def read_from_store (st : OSState) (p : String) : Option Bytes := underGet st p

/-- Modelled from the spec: the cache driver (`cache_system::cache::driver`) is
not among the sources.  Spec §4.1: `get` returns the cached value when
present; otherwise it runs the loader — here `read_from_store` wrapped in
retry-all-errors, whose outcome is the loader value — and caches the result,
whatever it is; entries are never removed ("cached forever like any other
result").  Returns the value, whether the underlying store was consulted, and
the new state. -/
def cacheGet (st : OSState) (p : String) : Option Bytes × Bool × OSState :=
  match st.cache.lookup p with
  | some v => (v, false, st)
  | none =>
    (read_from_store st p, true,
     { st with cache := (p, read_from_store st p) :: st.cache })

/-- `CachedObjectStore::get_data`: a cached `None` surfaces as `NotFound`. -/
def getData (st : OSState) (p : String) : Except OSError Bytes × Bool × OSState :=
  match cacheGet st p with
  | (some b, c, st') => (Except.ok b, c, st')
  | (none, c, st') => (Except.error OSError.notFound, c, st')

/-- Creating an object in the underlying store; the cached object store never
propagates such changes into the cache. -/
def underPut (st : OSState) (p : String) (b : Bytes) : OSState :=
  { st with under := (p, b) :: st.under }

/-- Deleting an object from the underlying store; the cache is untouched. -/
def underDelete (st : OSState) (p : String) : OSState :=
  { st with under := st.under.filter (fun e => e.1 != p) }

/-- `CachedObjectStore::get_range`: fetch the data through the cache, reject a
range end beyond the data and an inverted range with a `Generic` error, and
otherwise slice (`Bytes::slice`: the bytes at indices `[start, stop)`). -/
def cachedGetRange (st : OSState) (p : String) (start stop : Nat) : Except OSError Bytes :=
  match (getData st p).1 with
  | Except.error e => Except.error e
  | Except.ok data =>
    if data.length < stop then Except.error OSError.generic
    else if stop < start then Except.error OSError.generic
    else Except.ok ((data.drop start).take (stop - start))

/-- Witness state for the range theorem: the value for `"x"` is cached. -/
def osRW : OSState := { under := [], cache := [("x", some [1, 2, 3, 4])] }

/-- Witness state for the not-found-caching theorem: the underlying store holds
only `"a"`, the cache is cold. -/
def osW : OSState := { under := [("a", [1])], cache := [] }

/-! ## Loader coalescing (`cache_system`, spec §4.1) -/

/-- State of the load-coalescing machinery at one cache key: the cached value,
the callers waiting on the in-flight load, whether a load is running, how many
loads have ever started, and the (caller, value) observations made so far. -/
structure CoalesceState (V : Type) where
  cached : Option V
  waiters : List Nat
  loadInFlight : Bool
  loadStarts : Nat
  delivered : List (Nat × V)
deriving DecidableEq, Repr

/-- Events at one cache key: a `get` arriving, a caller dropping its `get`
future, and the shared load completing with a value. -/
inductive CEvent (V : Type) where
  | getStart (c : Nat)
  | dropCaller (c : Nat)
  | loadComplete (v : V)
deriving DecidableEq, Repr

/-- Modelled from the spec: the cache driver's load coalescing
(`cache_system::cache::driver` is not among the sources; `cache_system`'s
`Loader` trait only fixes the loader's signature).  Spec §4.1: a `get` on a
cached key observes the value; on a cold key it starts the one shared load;
while a load is in flight, further `get`s only join the waiter list.  Dropping
a caller removes it from the waiters but leaves the shared load running.
Completion caches the value and broadcasts it to every waiter. -/
def coalesceStep {V : Type} (st : CoalesceState V) : CEvent V → CoalesceState V
  | CEvent.getStart c =>
    match st.cached with
    | some v => { st with delivered := (c, v) :: st.delivered }
    | none =>
      if st.loadInFlight then { st with waiters := c :: st.waiters }
      else { st with loadInFlight := true, loadStarts := st.loadStarts + 1, waiters := [c] }
  | CEvent.dropCaller c => { st with waiters := st.waiters.filter (fun x => x != c) }
  | CEvent.loadComplete v =>
    if st.loadInFlight then
      { cached := some v, waiters := [], loadInFlight := false, loadStarts := st.loadStarts
        delivered := st.waiters.map (fun c => (c, v)) ++ st.delivered }
    else st

/-- Run a sequence of events. -/
def coalesceRun {V : Type} (st : CoalesceState V) (evs : List (CEvent V)) : CoalesceState V :=
  evs.foldl coalesceStep st

/-- A cold key: nothing cached, no load running. -/
def coldKey {V : Type} : CoalesceState V :=
  { cached := none, waiters := [], loadInFlight := false, loadStarts := 0, delivered := [] }

/-! ## Expected scenario outcomes (literal tables of the source tests) -/

/-- The earlier output band of the S1/S3 first compaction (rows with
`time ≤ t_split`), sorted by time; `tag1=WA, time=8000` carries `1500`. -/
def expectedBand1 : List Row :=
  [mkRow none (some "PA") (some "15") 1601 9,
   mkRow (some "WA") none none 1000 10,
   mkRow (some "VT") none none 10 20,
   mkRow none (some "OH") (some "21") 21 25,
   mkRow (some "VT") none none 10 6000,
   mkRow (some "WA") none none 1500 8000,
   mkRow (some "VT") none none 10 10000,
   mkRow (some "UT") none none 70 20000]

/-- The later output band of the S1/S3 first compaction (times 25000, 26000,
28000), sorted by time. -/
def expectedBand2 : List Row :=
  [mkRow (some "UT") none none 270 25000,
   mkRow none (some "VT") (some "20") 20 26000,
   mkRow none (some "WA") (some "10") 1600 28000]

/-- The 13 deduplicated rows of `full_cold_compaction_many_files`, sorted by
time. -/
def expected13Rows : List Row := expectedBand1 ++ expectedBand2 ++ lp6Rows

/-- The first file the S1 hot compaction writes (id 7). -/
def hotOutFile7 : PFile :=
  { id := 7, minTime := 9, maxTime := 20000, maxSequenceNumber := 18, fileSizeBytes := 10410
    compactionLevel := CompactionLevel.FileNonOverlapped, rows := expectedBand1
    toDelete := false }

/-- The second file the S1 hot compaction writes (id 8). -/
def hotOutFile8 : PFile :=
  { id := 8, minTime := 25000, maxTime := 28000, maxSequenceNumber := 18
    fileSizeBytes := 10410, compactionLevel := CompactionLevel.FileNonOverlapped
    rows := expectedBand2, toDelete := false }

/-! ## Witness data for the cold upgrade and grouping theorems -/

/-- Witness configuration: a tiny cold size threshold, so that the cold filter
stops right after the first level-0 file. -/
def cfgW : CompactorConfig := { cfgTest with coldInputSizeThresholdBytes := 1 }

/-- Witness file: a level-0 file. -/
def wF0 : PFile :=
  { id := 1, minTime := 10, maxTime := 20, maxSequenceNumber := 1, fileSizeBytes := 5
    compactionLevel := CompactionLevel.Initial, rows := [], toDelete := false }

/-- Witness file: a level-1 file whose time range overlaps `wF0`. -/
def wG0 : PFile :=
  { id := 2, minTime := 15, maxTime := 25, maxSequenceNumber := 2, fileSizeBytes := 5
    compactionLevel := CompactionLevel.FileNonOverlapped, rows := [], toDelete := false }

/-- Witness state: the overlapping pair `wF0`, `wG0`. -/
def wState : CatalogState := { files := [wF0, wG0], nextId := 3, blobsWritten := 0 }

/-- Witness files for the grouping theorem: sizes 60, 60 and 30. -/
def wDemoA : PFile :=
  { id := 11, minTime := 0, maxTime := 1, maxSequenceNumber := 1, fileSizeBytes := 60
    compactionLevel := CompactionLevel.FileNonOverlapped, rows := [], toDelete := false }

/-- Second grouping-witness file. -/
def wDemoB : PFile := { wDemoA with id := 12, maxSequenceNumber := 2 }

/-- Third grouping-witness file. -/
def wDemoC : PFile := { wDemoA with id := 13, maxSequenceNumber := 3, fileSizeBytes := 30 }

/-- The grouping-witness list. -/
def wDemoFiles : List PFile := [wDemoA, wDemoB, wDemoC]

end IoxCompact

namespace DeletePred

/-! ## The delete-expression round trip (`predicate/src/delete_expr.rs`)

`data_types::{DeleteExpr, Op, Scalar}` and the DataFusion expression shapes
this module touches.  `f64` payloads are carried as raw bit patterns: the
conversions between `OrderedFloat<f64>` and `f64` on the round trip are
bitwise identities. -/

/-- `data_types::Op`: the operator of a delete expression. -/
inductive Op where
  | eq
  | ne
deriving DecidableEq, Repr

/-- An `f64` payload as its raw bit pattern. -/
abbrev F64Bits := Nat

/-- The bit pattern of `0.0`. -/
def f64ZeroBits : F64Bits := 0

/-- `data_types::Scalar`: the literal of a delete expression. -/
inductive Scalar where
  | bool (b : Bool)
  | i64 (v : Int)
  | f64 (v : F64Bits)
  | string (s : String)
deriving DecidableEq, Repr

/-- `data_types::DeleteExpr`. -/
structure DeleteExpr where
  column : String
  op : Op
  scalar : Scalar
deriving DecidableEq, Repr

/-- `datafusion::scalar::ScalarValue`, restricted to the variants this module
produces and consumes, plus one unsupported variant. -/
inductive ScalarValue where
  | boolean (v : Option Bool)
  | int64 (v : Option Int)
  | float64 (v : Option F64Bits)
  | utf8 (v : Option String)
  | listValue
deriving DecidableEq, Repr

/-- `datafusion::logical_plan::Operator`, restricted to the variants this
module consumes, plus one unsupported variant. -/
inductive DfOperator where
  | eq
  | notEq
  | like
deriving DecidableEq, Repr

/-- `datafusion::logical_plan::Expr`, restricted to the shapes this module
touches.  DataFusion's `Case` carries a vector of when/then pairs; this module
only ever builds and consumes a single pair, which is embedded directly. -/
inductive DfExpr where
  | column (relation : Option String) (name : String)
  | literal (v : ScalarValue)
  | isNull (e : DfExpr)
  | caseExpr (discr : Option DfExpr) (whenExpr thenExpr : DfExpr) (elseExpr : Option DfExpr)
  | binaryExpr (left : DfExpr) (op : DfOperator) (right : DfExpr)
  | notExpr (e : DfExpr)

/-- Conversion errors of `df_to_expr` (`DataFusionToExprError`). -/
inductive DfToExprError where
  | unsupportedExpression
  | unsupportedOperants
  | cannotConvertOperator
  | cannotConvertScalarValue
deriving DecidableEq, Repr

/-- `op_to_df` from `predicate/src/delete_expr.rs`. -/
def op_to_df : Op → DfOperator
  | Op.eq => DfOperator.eq
  | Op.ne => DfOperator.notEq

/-- `df_to_op` from `predicate/src/delete_expr.rs` (`none` stands for the
`UnsupportedOperator` error). -/
def df_to_op : DfOperator → Option Op
  | DfOperator.eq => some Op.eq
  | DfOperator.notEq => some Op.ne
  | _ => none

/-- `df_to_scalar` from `predicate/src/delete_expr.rs` (`none` stands for the
`UnsupportedScalarValue` error). -/
def df_to_scalar : ScalarValue → Option Scalar
  | ScalarValue.utf8 (some v) => some (Scalar.string v)
  | ScalarValue.int64 (some v) => some (Scalar.i64 v)
  | ScalarValue.float64 (some v) => some (Scalar.f64 v)
  | ScalarValue.boolean (some v) => some (Scalar.bool v)
  | _ => none

/-- `expr_to_df` from `predicate/src/delete_expr.rs`: wrap the column in
`CASE WHEN column IS NULL THEN type-default ELSE column END` and compare it to
the literal. -/
def expr_to_df (e : DeleteExpr) : DfExpr :=
  match e.scalar with
  | Scalar.bool v =>
    DfExpr.binaryExpr
      (DfExpr.caseExpr none (DfExpr.isNull (DfExpr.column none e.column))
        (DfExpr.literal (ScalarValue.boolean (some false)))
        (some (DfExpr.column none e.column)))
      (op_to_df e.op) (DfExpr.literal (ScalarValue.boolean (some v)))
  | Scalar.i64 v =>
    DfExpr.binaryExpr
      (DfExpr.caseExpr none (DfExpr.isNull (DfExpr.column none e.column))
        (DfExpr.literal (ScalarValue.int64 (some 0)))
        (some (DfExpr.column none e.column)))
      (op_to_df e.op) (DfExpr.literal (ScalarValue.int64 (some v)))
  | Scalar.f64 v =>
    DfExpr.binaryExpr
      (DfExpr.caseExpr none (DfExpr.isNull (DfExpr.column none e.column))
        (DfExpr.literal (ScalarValue.float64 (some f64ZeroBits)))
        (some (DfExpr.column none e.column)))
      (op_to_df e.op) (DfExpr.literal (ScalarValue.float64 (some v)))
  | Scalar.string v =>
    DfExpr.binaryExpr
      (DfExpr.caseExpr none (DfExpr.isNull (DfExpr.column none e.column))
        (DfExpr.literal (ScalarValue.utf8 (some "")))
        (some (DfExpr.column none e.column)))
      (op_to_df e.op) (DfExpr.literal (ScalarValue.utf8 (some v)))

/-- Modelled from the spec: `datafusion_util::extract_null_wrapped_column` is
not among the sources.  It recognises exactly the null-wrapping `CASE WHEN
column IS NULL THEN default ELSE column END` shape that `expr_to_df` builds,
yielding the wrapped column's name. -/
def extract_null_wrapped_column : DfExpr → Option String
  | DfExpr.caseExpr none (DfExpr.isNull (DfExpr.column none n1)) (DfExpr.literal _)
      (some (DfExpr.column none n2)) => if n1 = n2 then some n1 else none
  | _ => none

/-- `df_to_expr` from `predicate/src/delete_expr.rs`: accept exactly a binary
expression whose left side is a null-wrapped column and whose right side is a
supported literal, with a supported operator. -/
def df_to_expr (e : DfExpr) : Except DfToExprError DeleteExpr :=
  match e with
  | DfExpr.binaryExpr left op right =>
    match extract_null_wrapped_column left with
    | none => Except.error DfToExprError.unsupportedOperants
    | some col =>
      match right with
      | DfExpr.literal v =>
        match df_to_scalar v with
        | none => Except.error DfToExprError.cannotConvertScalarValue
        | some sc =>
          match df_to_op op with
          | none => Except.error DfToExprError.cannotConvertOperator
          | some o => Except.ok { column := col, op := o, scalar := sc }
      | _ => Except.error DfToExprError.unsupportedOperants
  | _ => Except.error DfToExprError.unsupportedExpression

end DeletePred

/-! ## Theorems -/

namespace DeletePred

/-- C10: for every delete expression (a column name, an operator `Eq` or `Ne`,
and a scalar of kind `Bool`, `I64`, `F64` or `String`), converting it to a
DataFusion expression and back is the identity:
`df_to_expr (expr_to_df e) = Ok e`. -/
theorem delete_expr_roundtrip (e : DeleteExpr) : df_to_expr (expr_to_df e) = Except.ok e := by
  obtain ⟨col, op, sc⟩ := e
  cases op <;> cases sc <;>
    simp [expr_to_df, df_to_expr, extract_null_wrapped_column, df_to_scalar, df_to_op, op_to_df]

end DeletePred

namespace IoxCompact

/-- C3: on the S3 input (the six files of `full_cold_compaction_many_files`,
all cold), `compact_cold_partition` ends with exactly one live file, at level
`Final`, containing the 13 deduplicated rows of the test's sorted table. -/
theorem full_cold_compaction_s3 :
    (liveFiles (compactColdPartition cfgTest sixFilesState).1).map
        (fun f => (f.compactionLevel, f.rows)) =
      [(CompactionLevel.Final, expected13Rows)] := by decide

/-- C5: on the S1 input, one hot cycle leaves exactly three live files, all at
`FileNonOverlapped`: the band with times 9 .. 20000 (where the surviving
duplicate `tag1=WA, time=8000` carries `field_int = 1500`, not 1000), the band
with times 25000, 26000, 28000, and the untouched `pf6`. -/
theorem hot_compaction_s1 :
    liveFiles (compactHotPartition cfgTest estSmall sixFilesState) =
        [pf6, hotOutFile7, hotOutFile8]
      ∧ mkRow (some "WA") none none 1500 8000 ∈ hotOutFile7.rows
      ∧ mkRow (some "WA") none none 1000 8000 ∉ hotOutFile7.rows := by decide

/-- C4 counterexample: on the S2 input (one L0 file, one non-overlapping L1
file), running the full cold cycle `compact_cold_partition` does NOT end with
two live files at `FileNonOverlapped` and no new blobs: its second step
(`full_compaction`) combines the two level-1 files into one `Final` file. -/
theorem cold_cycle_s2_not_promotion_only :
    ¬ ((liveFiles (compactColdPartition cfgTest s2State).1).length = 2
      ∧ (∀ f ∈ liveFiles (compactColdPartition cfgTest s2State).1,
          f.compactionLevel = CompactionLevel.FileNonOverlapped)
      ∧ (compactColdPartition cfgTest s2State).1.blobsWritten = 0) := by decide

/-- C4 amended: on the S2 input, the remaining-L0 step alone
(`compact_remaining_level_0_files`) ends with two live files at
`FileNonOverlapped` — the L0 was promoted via `update_compaction_level`, no
bytes were rewritten and no blob was written — while the subsequent
`full_compaction` step of `compact_cold_partition` combines those two level-1
files into a single live `Final` file with one new blob. -/
theorem cold_remaining_step_s2_promotion :
    (compactRemainingLevel0Files cfgTest s2State).1 =
        { files := [{ pf1 with compactionLevel := CompactionLevel.FileNonOverlapped }, pf6S2]
          nextId := 3, blobsWritten := 0 }
      ∧ (compactRemainingLevel0Files cfgTest s2State).2 =
          [Action.upgrade [1] CompactionLevel.FileNonOverlapped]
      ∧ (liveFiles (compactColdPartition cfgTest s2State).1).map (·.compactionLevel) =
          [CompactionLevel.Final]
      ∧ (compactColdPartition cfgTest s2State).1.blobsWritten = 1 := by decide

end IoxCompact

namespace IoxCompact

/-- C1: whenever the cold filter selects exactly one file and that file is at
level `Initial`, `compact_remaining_level_0_files` issues
`update_compaction_level([id], FileNonOverlapped)` against the catalog and
completes without rewriting any data (no combine action, no blob written, no
new file id) — the branch never consults the partition's level-1 files, so
this holds regardless of any time overlap with them. -/
theorem cold_singleton_l0_upgrade (cfg : CompactorConfig) (st : CatalogState) (f : PFile)
    (hsel : filterColdParquetFiles (lookupForPartition st) cfg.coldInputSizeThresholdBytes
        cfg.coldInputFileCountThreshold = [f])
    (hlvl : f.compactionLevel = CompactionLevel.Initial) :
    (compactRemainingLevel0Files cfg st).2 =
        [Action.upgrade [f.id] CompactionLevel.FileNonOverlapped]
      ∧ (compactRemainingLevel0Files cfg st).1 =
          updateCompactionLevel st [f.id] CompactionLevel.FileNonOverlapped
      ∧ (compactRemainingLevel0Files cfg st).1.blobsWritten = st.blobsWritten
      ∧ (compactRemainingLevel0Files cfg st).1.nextId = st.nextId := by
  have h : compactRemainingLevel0Files cfg st =
      (updateCompactionLevel st [f.id] CompactionLevel.FileNonOverlapped,
       [Action.upgrade [f.id] CompactionLevel.FileNonOverlapped]) := by
    unfold compactRemainingLevel0Files
    simp only []
    rw [hsel]
    simp [hlvl]
  rw [h]
  exact ⟨rfl, rfl, rfl, rfl⟩

/-- C1 witness: a concrete state in which the selected singleton L0 (`wF0`)
overlaps the existing level-1 file `wG0` in time, yet the step still issues the
promotion. -/
theorem cold_singleton_l0_upgrade_witness :
    overlapsB wF0 wG0 = true
      ∧ wG0.compactionLevel = CompactionLevel.FileNonOverlapped
      ∧ (compactRemainingLevel0Files cfgW wState).2 =
          [Action.upgrade [1] CompactionLevel.FileNonOverlapped] :=
  ⟨by decide, by decide,
    (cold_singleton_l0_upgrade cfgW wState wF0 (by decide) (by decide)).1⟩

end IoxCompact

namespace IoxCompact

/-- Appending one file to a group advances its cumulative `u64` size by one
`cumAdd` step. -/
theorem groupCumSize_concat (g : List PFile) (f : PFile) :
    groupCumSize (g ++ [f]) = cumAdd (groupCumSize g) f := by
  simp [groupCumSize, List.foldl_append]

/-- The grouping loop only rearranges the input: joining the groups gives back
the file list, in order, behind the running group. -/
theorem groupFilesGo_join (maxB : Nat) (l : List PFile) :
    ∀ (g : List PFile) (c : Nat), (groupFilesGo maxB l g c).flatten = g ++ l := by
  induction l with
  | nil => intro g c; cases g <;> simp [groupFilesGo]
  | cons f rest ih =>
    intro g c
    by_cases h : maxB ≤ cumAdd c f
    · simp [groupFilesGo, h, ih]
    · simp [groupFilesGo, h, ih]

/-- Membership in `dropLast` of a cons. -/
theorem mem_dropLast_cons {α : Type} (x a : α) (l : List α) (h : x ∈ (a :: l).dropLast) :
    x = a ∨ x ∈ l.dropLast := by
  cases l with
  | nil => simp [List.dropLast] at h
  | cons b t =>
    rw [show (a :: b :: t).dropLast = a :: (b :: t).dropLast from rfl] at h
    exact List.mem_cons.mp h

/-- Every group the loop closes (every group but possibly the trailing one)
was closed because its cumulative size reached the threshold. -/
theorem groupFilesGo_closed (maxB : Nat) (l : List PFile) :
    ∀ (g : List PFile) (c : Nat), c = groupCumSize g →
      ∀ gr ∈ (groupFilesGo maxB l g c).dropLast, maxB ≤ groupCumSize gr := by
  induction l with
  | nil =>
    intro g c _ gr hgr
    cases g with
    | nil => simp [groupFilesGo] at hgr
    | cons a t => simp [groupFilesGo, List.dropLast] at hgr
  | cons f rest ih =>
    intro g c hc gr hgr
    by_cases h : maxB ≤ cumAdd c f
    · simp only [groupFilesGo, if_pos h] at hgr
      rcases mem_dropLast_cons gr (g ++ [f]) _ hgr with h1 | h1
      · subst h1
        rw [groupCumSize_concat, ← hc]
        exact h
      · exact ih [] 0 rfl gr h1
    · simp only [groupFilesGo, if_neg h] at hgr
      exact ih (g ++ [f]) (cumAdd c f) (by rw [groupCumSize_concat, hc]) gr hgr

/-- While a group is still growing, its cumulative size is below the
threshold: every nonempty proper prefix of every produced group sums below
`maxB`. -/
theorem groupFilesGo_open (maxB : Nat) (l : List PFile) :
    ∀ (g : List PFile) (c : Nat), c = groupCumSize g →
      (∀ k, 0 < k → k ≤ g.length → groupCumSize (g.take k) < maxB) →
      ∀ gr ∈ groupFilesGo maxB l g c, ∀ k, 0 < k → k < gr.length →
        groupCumSize (gr.take k) < maxB := by
  induction l with
  | nil =>
    intro g c _ hinv gr hgr k hk hklen
    cases g with
    | nil => simp [groupFilesGo] at hgr
    | cons a t =>
      simp [groupFilesGo] at hgr
      subst hgr
      exact hinv k hk (le_of_lt hklen)
  | cons f rest ih =>
    intro g c hc hinv gr hgr k hk hklen
    by_cases h : maxB ≤ cumAdd c f
    · simp only [groupFilesGo, if_pos h] at hgr
      rcases List.mem_cons.mp hgr with h1 | h1
      · subst h1
        have hk2 : k ≤ g.length := by
          have hlen := hklen
          simp [List.length_append] at hlen
          omega
        rw [List.take_append_of_le_length hk2]
        exact hinv k hk hk2
      · refine ih [] 0 rfl ?_ gr h1 k hk hklen
        intro k2 hk2 hk2len
        simp at hk2len
        omega
    · simp only [groupFilesGo, if_neg h] at hgr
      refine ih (g ++ [f]) (cumAdd c f) (by rw [groupCumSize_concat, hc]) ?_ gr hgr k hk hklen
      intro k2 hk2 hk2len
      rcases Nat.lt_or_ge k2 (g.length + 1) with hlt | hge
      · have hle : k2 ≤ g.length := by omega
        rw [List.take_append_of_le_length hle]
        exact hinv k2 hk2 hle
      · have hlen : k2 = (g ++ [f]).length := by
          simp [List.length_append] at hk2len ⊢
          omega
        rw [hlen, List.take_length, groupCumSize_concat, ← hc]
        exact Nat.lt_of_not_le h

/-- Every produced group is nonempty. -/
theorem groupFilesGo_ne_nil (maxB : Nat) (l : List PFile) :
    ∀ (g : List PFile) (c : Nat), ∀ gr ∈ groupFilesGo maxB l g c, gr ≠ [] := by
  induction l with
  | nil =>
    intro g c gr hgr
    cases g with
    | nil => simp [groupFilesGo] at hgr
    | cons a t =>
      simp [groupFilesGo] at hgr
      subst hgr
      simp
  | cons f rest ih =>
    intro g c gr hgr
    by_cases h : maxB ≤ cumAdd c f
    · simp only [groupFilesGo, if_pos h] at hgr
      rcases List.mem_cons.mp hgr with h1 | h1
      · subst h1; simp
      · exact ih [] 0 gr h1
    · simp only [groupFilesGo, if_neg h] at hgr
      exact ih (g ++ [f]) (cumAdd c f) gr hgr

/-- One loop iteration of `full_compaction` appends exactly the action of its
group. -/
theorem fullCompactionStep_actions (acc : CatalogState × List Action) (g : List PFile) :
    (fullCompactionStep acc g).2 = acc.2 ++ [groupAction g] := by
  match g with
  | [] => rfl
  | [f] => rfl
  | f :: f2 :: t => rfl

/-- Folding the loop over the groups emits one action per group, in order. -/
theorem foldl_fullCompactionStep_actions (groups : List (List PFile)) :
    ∀ (acc : CatalogState × List Action),
      (groups.foldl fullCompactionStep acc).2 = acc.2 ++ groups.map groupAction := by
  induction groups with
  | nil => intro acc; simp
  | cons g rest ih =>
    intro acc
    rw [List.foldl_cons, ih, fullCompactionStep_actions]
    simp

end IoxCompact

namespace IoxCompact

/-- C2: `full_compaction` partitions the level-1 file list, in order, into
consecutive groups: a group is closed exactly when its cumulative (`u64`) size
reaches `cold_max_desired_file_size_bytes` — every closed group reached the
threshold, every nonempty proper prefix of a group stayed below it — and the
trailing remainder forms a final nonempty group.  The loop then emits one
action per group, in order: a singleton group is promoted via
`update_compaction_level([id], Final)`, a larger group is handed to the
combiner as one output unit (one new file, one blob). -/
theorem full_compaction_grouping (level1 : List PFile) (maxB : Nat) (cfg : CompactorConfig)
    (st : CatalogState) :
    (fullCompactionGroups level1 maxB).flatten = level1
      ∧ (∀ gr ∈ (fullCompactionGroups level1 maxB).dropLast, maxB ≤ groupCumSize gr)
      ∧ (∀ gr ∈ fullCompactionGroups level1 maxB, ∀ k, 0 < k → k < gr.length →
          groupCumSize (gr.take k) < maxB)
      ∧ (∀ gr ∈ fullCompactionGroups level1 maxB, gr ≠ [])
      ∧ (fullCompaction cfg st).2 =
          (fullCompactionGroups (lookupForPartition st).level1
            cfg.coldMaxDesiredFileSizeBytes).map groupAction
      ∧ (∀ g : List PFile, (compactFinalNoSplits st g).blobsWritten = st.blobsWritten + 1
          ∧ (compactFinalNoSplits st g).nextId = st.nextId + 1) := by
  have hopen : ∀ gr ∈ fullCompactionGroups level1 maxB, ∀ k, 0 < k → k < gr.length →
      groupCumSize (gr.take k) < maxB := by
    refine groupFilesGo_open maxB level1 [] 0 rfl ?_
    intro k hk hkl
    simp at hkl
    omega
  have hacts : (fullCompaction cfg st).2 =
      (fullCompactionGroups (lookupForPartition st).level1
        cfg.coldMaxDesiredFileSizeBytes).map groupAction := by
    have h := foldl_fullCompactionStep_actions
      (fullCompactionGroups (lookupForPartition st).level1 cfg.coldMaxDesiredFileSizeBytes)
      (st, [])
    simpa [fullCompaction] using h
  exact ⟨by simpa using groupFilesGo_join maxB level1 [] 0,
    groupFilesGo_closed maxB level1 [] 0 rfl, hopen,
    groupFilesGo_ne_nil maxB level1 [] 0, hacts, fun g => ⟨rfl, rfl⟩⟩

/-- C2 witness: files of sizes 60, 60 and 30 against a threshold of 100 are
grouped as `[[60, 60], [30]]` — the first group closes on reaching 100, the
remainder forms the trailing group — and the loop combines the pair while
upgrading the singleton. -/
theorem full_compaction_grouping_witness :
    (fullCompactionGroups wDemoFiles 100).flatten = wDemoFiles
      ∧ fullCompactionGroups wDemoFiles 100 = [[wDemoA, wDemoB], [wDemoC]]
      ∧ (fullCompactionGroups wDemoFiles 100).map groupAction =
          [Action.combine [wDemoA, wDemoB] CompactionLevel.Final,
           Action.upgrade [13] CompactionLevel.Final] :=
  ⟨(full_compaction_grouping wDemoFiles 100 cfgTest wState).1, by decide, by decide⟩

end IoxCompact

namespace IoxCompact

/-- Against a persistently failing store, the put loop never finishes, for any
amount of fuel and any starting attempt index. -/
theorem uploadPutLoop_allPutsFail (fuel : Nat) :
    ∀ i : Nat, uploadPutLoop allPutsFail fuel i = none := by
  induction fuel with
  | zero => intro i; rfl
  | succ n ih => intro i; simpa [uploadPutLoop, allPutsFail] using ih (i + 1)

/-- C6 counterexample: with a persistently failing object store, `upload` is
still looping after a million `put` attempts — there is no retry budget after
which the failure would surface — and the sleep between attempts is the same
constant for every attempt, not an exponential backoff. -/
theorem upload_persistent_failure_never_surfaces :
    uploadModel true true allPutsFail 1000000 = none
      ∧ uploadRetryDelaySecs 9 = uploadRetryDelaySecs 0 := by
  constructor
  · simp [uploadModel, uploadPutLoop_allPutsFail]
  · rfl

/-- The put loop returns right after the first successful attempt: with the
first `n` attempts failing and attempt `n` succeeding, it makes exactly
`n + 1` `put` calls. -/
theorem uploadPutLoop_first_success (putOk : Nat → Bool) :
    ∀ (n i : Nat), (∀ m, m < n → putOk (i + m) = false) → putOk (i + n) = true →
      uploadPutLoop putOk (n + 1) i = some (i + n + 1) := by
  intro n
  induction n with
  | zero =>
    intro i _ hsucc
    simp [uploadPutLoop, show putOk i = true by simpa using hsucc]
  | succ k ih =>
    intro i hfail hsucc
    have h0 : putOk i = false := by simpa using hfail 0 (Nat.succ_pos k)
    have hfail2 : ∀ m, m < k → putOk (i + 1 + m) = false := by
      intro m hm
      have := hfail (m + 1) (by omega)
      have harith : i + (m + 1) = i + 1 + m := by omega
      rwa [harith] at this
    have hsucc2 : putOk (i + 1 + k) = true := by
      have harith : i + (k + 1) = i + 1 + k := by omega
      rwa [harith] at hsucc
    have := ih (i + 1) hfail2 hsucc2
    have harith : i + 1 + k + 1 = i + (k + 1) + 1 := by omega
    rw [harith] at this
    simpa [uploadPutLoop, h0] using this

/-- C6 amended: transient object-store `put` failures are retried indefinitely
with a fixed one-second sleep between attempts (no exponential backoff, no
retry budget); `upload` returns — successfully — exactly at the first
successful `put`, and never surfaces a `put` failure as an error to the
caller, while serialisation and metadata failures do propagate immediately. -/
theorem upload_retries_until_first_success (putOk : Nat → Bool) (n : Nat)
    (hfail : ∀ m, m < n → putOk m = false) (hsucc : putOk n = true) :
    uploadModel true true putOk (n + 1) = some (Except.ok ())
      ∧ uploadPutLoop putOk (n + 1) 0 = some (n + 1)
      ∧ (∀ fuel, uploadModel true true putOk fuel ≠ some (Except.error UploadError.upload))
      ∧ (∀ m, uploadRetryDelaySecs m = 1)
      ∧ uploadModel false true putOk 0 = some (Except.error UploadError.serialise)
      ∧ uploadModel true false putOk 0 = some (Except.error UploadError.metadata) := by
  have hloop : uploadPutLoop putOk (n + 1) 0 = some (n + 1) := by
    have := uploadPutLoop_first_success putOk n 0 (by simpa using hfail) (by simpa using hsucc)
    simpa using this
  refine ⟨by simp [uploadModel, hloop], hloop, ?_, fun m => rfl, rfl, rfl⟩
  intro fuel
  cases h : uploadPutLoop putOk fuel 0 <;> simp [uploadModel, h]

/-- C6 witness: a store failing twice and then succeeding makes `upload` return
success after exactly three `put` calls. -/
theorem upload_retries_until_first_success_witness :
    uploadModel true true putOkAfterTwo 3 = some (Except.ok ())
      ∧ uploadPutLoop putOkAfterTwo 3 0 = some 3 :=
  ⟨(upload_retries_until_first_success putOkAfterTwo 2 (by decide) (by decide)).1,
   (upload_retries_until_first_success putOkAfterTwo 2 (by decide) (by decide)).2.1⟩

end IoxCompact

namespace IoxCompact

/-- C7: a "not found" loader outcome is a valid cached value.  On a cold key
whose object is absent, the first `get` consults the store, yields `NotFound`,
and caches `None`; after the object is then created in the underlying store,
`get` still returns `NotFound` from the cache without consulting the store.
Symmetrically, a cached `Some` value keeps being served after the underlying
object is deleted, and no underlying mutation ever touches the cache. -/
theorem notfound_cached_forever (st : OSState) (p : String) (b : Bytes)
    (hcold : st.cache.lookup p = none) (habsent : underGet st p = none) :
    (getData st p).1 = Except.error OSError.notFound
      ∧ (getData st p).2.1 = true
      ∧ ((getData st p).2.2).cache.lookup p = some none
      ∧ (getData (underPut (getData st p).2.2 p b) p).1 = Except.error OSError.notFound
      ∧ (getData (underPut (getData st p).2.2 p b) p).2.1 = false
      ∧ (∀ (st2 : OSState) (q : String) (d : Bytes), st2.cache.lookup q = some (some d) →
          (getData (underDelete st2 q) q).1 = Except.ok d
            ∧ (getData (underDelete st2 q) q).2.1 = false)
      ∧ (∀ (st2 : OSState) (q : String) (d : Bytes),
          (underPut st2 q d).cache = st2.cache ∧ (underDelete st2 q).cache = st2.cache) := by
  have hload : read_from_store st p = none := habsent
  have hfirst : getData st p =
      (Except.error OSError.notFound, true, { st with cache := (p, none) :: st.cache }) := by
    simp [getData, cacheGet, hcold, hload]
  refine ⟨by rw [hfirst], by rw [hfirst], ?_, ?_, ?_, ?_, fun st2 q d => ⟨rfl, rfl⟩⟩
  · rw [hfirst]
    simp [List.lookup]
  · rw [hfirst]
    simp [getData, cacheGet, underPut, List.lookup]
  · rw [hfirst]
    simp [getData, cacheGet, underPut, List.lookup]
  · intro st2 q d hq
    have : (underDelete st2 q).cache.lookup q = some (some d) := hq
    constructor <;> simp [getData, cacheGet, this]

/-- C7 witness: on the concrete cold state `osW` (the store holds only `"a"`),
getting `"q"`, then creating `"q"` in the underlying store, then getting again
still yields `NotFound`. -/
theorem notfound_cached_forever_witness :
    (getData (underPut (getData osW "q").2.2 "q" [7]) "q").1 = Except.error OSError.notFound :=
  (notfound_cached_forever osW "q" [7] (by decide) (by decide)).2.2.2.1

end IoxCompact

namespace IoxCompact

/-- While a load is in flight on an uncached key, a burst of `get`s only joins
the waiter list: no state component other than the waiters changes, and in
particular no further load starts. -/
theorem coalesce_joins {V : Type} (cs : List Nat) :
    ∀ (w : List Nat) (ls : Nat) (del : List (Nat × V)),
      coalesceRun ⟨none, w, true, ls, del⟩ (cs.map CEvent.getStart) =
        ⟨none, cs.reverse ++ w, true, ls, del⟩ := by
  induction cs with
  | nil => intro w ls del; simp [coalesceRun]
  | cons c rest ih =>
    intro w ls del
    have hstep : coalesceStep (⟨none, w, true, ls, del⟩ : CoalesceState V)
        (CEvent.getStart c) = ⟨none, c :: w, true, ls, del⟩ := rfl
    have hrun : coalesceRun (⟨none, w, true, ls, del⟩ : CoalesceState V)
        ((c :: rest).map CEvent.getStart) =
        coalesceRun ⟨none, c :: w, true, ls, del⟩ (rest.map CEvent.getStart) := by
      simp [coalesceRun, hstep]
    rw [hrun, ih (c :: w) ls del]
    simp

/-- C8: for any nonempty burst of concurrent `get`s on a cold key, the loader
starts exactly once; dropping one caller leaves the shared load in flight with
still that single load started; and when the load completes with `v`, every
delivered observation carries the same `v`, every caller other than the
dropped one observes `v`, the value is cached and the load count is still
one. -/
theorem cache_single_flight {V : Type} (c0 : Nat) (cs : List Nat) (d : Nat) (v : V) :
    (coalesceRun (coldKey : CoalesceState V) ((c0 :: cs).map CEvent.getStart)).loadStarts = 1
      ∧ (coalesceStep (coalesceRun (coldKey : CoalesceState V) ((c0 :: cs).map CEvent.getStart))
          (CEvent.dropCaller d)).loadInFlight = true
      ∧ (∀ p ∈ (coalesceStep (coalesceStep
            (coalesceRun (coldKey : CoalesceState V) ((c0 :: cs).map CEvent.getStart)) (CEvent.dropCaller d))
            (CEvent.loadComplete v)).delivered, p.2 = v)
      ∧ (∀ c ∈ c0 :: cs, c ≠ d →
          (c, v) ∈ (coalesceStep (coalesceStep
            (coalesceRun (coldKey : CoalesceState V) ((c0 :: cs).map CEvent.getStart)) (CEvent.dropCaller d))
            (CEvent.loadComplete v)).delivered)
      ∧ (coalesceStep (coalesceStep
          (coalesceRun (coldKey : CoalesceState V) ((c0 :: cs).map CEvent.getStart)) (CEvent.dropCaller d))
          (CEvent.loadComplete v)).loadStarts = 1
      ∧ (coalesceStep (coalesceStep
          (coalesceRun (coldKey : CoalesceState V) ((c0 :: cs).map CEvent.getStart)) (CEvent.dropCaller d))
          (CEvent.loadComplete v)).cached = some v := by
  have hrun : coalesceRun (coldKey : CoalesceState V) ((c0 :: cs).map CEvent.getStart) =
      (⟨none, cs.reverse ++ [c0], true, 1, []⟩ : CoalesceState V) := by
    have hstep : coalesceStep (coldKey : CoalesceState V) (CEvent.getStart c0) =
        ⟨none, [c0], true, 1, []⟩ := rfl
    have : coalesceRun (coldKey : CoalesceState V) ((c0 :: cs).map CEvent.getStart) =
        coalesceRun ⟨none, [c0], true, 1, []⟩ (cs.map CEvent.getStart) := by
      simp [coalesceRun, hstep]
    rw [this, coalesce_joins cs [c0] 1 []]
  rw [hrun]
  have hdrop : coalesceStep (⟨none, cs.reverse ++ [c0], true, 1, []⟩ : CoalesceState V)
      (CEvent.dropCaller d) =
      ⟨none, (cs.reverse ++ [c0]).filter (fun x => x != d), true, 1, []⟩ := rfl
  rw [hdrop]
  have hdone : coalesceStep
      (⟨none, (cs.reverse ++ [c0]).filter (fun x => x != d), true, 1, []⟩ : CoalesceState V)
      (CEvent.loadComplete v) =
      ⟨some v, [], false, 1,
        ((cs.reverse ++ [c0]).filter (fun x => x != d)).map (fun c => (c, v)) ++ []⟩ := rfl
  rw [hdone]
  refine ⟨rfl, rfl, ?_, ?_, rfl, rfl⟩
  · intro p hp
    simp only [List.append_nil, List.mem_map] at hp
    obtain ⟨c, _, hc⟩ := hp
    rw [← hc]
  · intro c hc hne
    have hcW : c ∈ cs.reverse ++ [c0] := by
      rcases List.mem_cons.mp hc with h | h
      · subst h; simp
      · simp [List.mem_append, List.mem_reverse, h]
    have hmem : c ∈ (cs.reverse ++ [c0]).filter (fun x => x != d) :=
      List.mem_filter.mpr ⟨hcW, by simpa using hne⟩
    simpa using List.mem_map_of_mem (fun c => (c, v)) hmem

/-- C8 witness: three concurrent `get`s (callers 1, 2, 3) on a cold key start
one load; after caller 2 drops out and the load completes with 42, caller 1
observes 42 and the load ran once. -/
theorem cache_single_flight_witness :
    (coalesceRun (coldKey : CoalesceState Nat) (([1, 2, 3] : List Nat).map CEvent.getStart)).loadStarts = 1
      ∧ (1, 42) ∈ (coalesceStep (coalesceStep
          (coalesceRun (coldKey : CoalesceState Nat) (([1, 2, 3] : List Nat).map CEvent.getStart))
          (CEvent.dropCaller 2)) (CEvent.loadComplete (42 : Nat))).delivered :=
  ⟨(cache_single_flight 1 [2, 3] 2 (42 : Nat)).1,
   (cache_single_flight 1 [2, 3] 2 (42 : Nat)).2.2.2.1 1 (by decide) (by decide)⟩

end IoxCompact

namespace IoxCompact

/-- C9: for an object whose data is available through the cache, `get_range`
returns `Ok` with exactly the bytes at indices `[start, stop)` when
`start ≤ stop ≤ length`, and a `Generic` error — never a panic, the function
is total — when the range end exceeds the data length or the range is
inverted. -/
theorem get_range_bounds (st : OSState) (p : String) (data : Bytes) (start stop : Nat)
    (hdata : (getData st p).1 = Except.ok data) :
    (start ≤ stop → stop ≤ data.length →
        cachedGetRange st p start stop = Except.ok ((data.drop start).take (stop - start))
          ∧ ((data.drop start).take (stop - start)).length = stop - start
          ∧ ∀ i, i < stop - start →
              ((data.drop start).take (stop - start))[i]? = data[start + i]?)
      ∧ (data.length < stop ∨ stop < start →
          cachedGetRange st p start stop = Except.error OSError.generic) := by
  constructor
  · intro h1 h2
    refine ⟨?_, ?_, ?_⟩
    · simp only [cachedGetRange, hdata]
      rw [if_neg (by omega), if_neg (by omega)]
    · simp
      omega
    · intro i hi
      rw [List.getElem?_take_of_lt hi, List.getElem?_drop]
  · intro h
    by_cases hlen : data.length < stop
    · simp only [cachedGetRange, hdata]
      rw [if_pos hlen]
    · have hinv : stop < start := by omega
      simp only [cachedGetRange, hdata]
      rw [if_neg hlen, if_pos hinv]

/-- C9 witness: on the concrete cached state `osRW` (data `[1, 2, 3, 4]` at
`"x"`), the range `[1, 3)` yields `[2, 3]` and the out-of-bounds range `[0, 9)`
yields the `Generic` error. -/
theorem get_range_bounds_witness :
    cachedGetRange osRW "x" 1 3 = Except.ok [2, 3]
      ∧ cachedGetRange osRW "x" 0 9 = Except.error OSError.generic := by
  constructor
  · have h := ((get_range_bounds osRW "x" [1, 2, 3, 4] 1 3 rfl).1
      (by decide) (by decide)).1
    simpa using h
  · exact (get_range_bounds osRW "x" [1, 2, 3, 4] 0 9 rfl).2 (Or.inl (by decide))

end IoxCompact
